import Mathlib

/-!
Verification of the atlassian-bug-dashboard pipeline: data model, sync upsert,
analytics overview, triage flow, bug listing, and the frontend page handlers.

The Bug record is embedded from the API client interface (src/src/lib/api.ts,
src/unnamed/part_001). Timestamps are modelled as rationals (days since an
arbitrary epoch); the backend services (Python, under backend/, not present in
the source tree) are modelled from the specification where noted.
-/

/-- The Bug record, embedded from the interface declared in the API client
(src/unnamed/part_001): base fields plus the nullable classification block. -/
structure Bug where
  jira_key : String
  summary : String
  status : String
  priority : Option String
  created_at : ℚ
  updated_at : ℚ
  resolved_at : Option ℚ
  component : Option String
  reporter : Option String
  assignee : Option String
  triage_category : Option String
  triage_priority : Option String
  triage_urgency : Option String
  triage_team : Option String
  triage_tags : Option (List String)
  triage_confidence : Option ℚ
  triage_reasoning : Option String
  triaged_at : Option ℚ
deriving DecidableEq

/-- A record returned by the issue tracker's search API, as mapped by the
Issue-Tracker Client (spec section 2): the base Bug fields without the
classification block. -/
structure Issue where
  key : String
  summary : String
  status : String
  priority : Option String
  created_at : ℚ
  updated_at : ℚ
  resolved_at : Option ℚ
  component : Option String
  reporter : Option String
  assignee : Option String
deriving DecidableEq

/-- A structured classification result returned by the Classification Client
(spec section 4.3). -/
structure Classification where
  category : String
  priority : String
  urgency : String
  team : String
  tags : List String
  confidence : ℚ
  reasoning : String
deriving DecidableEq

/-- Modelled from the spec: the backend Sync Service (not under src/) inserts a
new Bug row from a tracker issue when the key is absent; classification fields
start null. -/
def insertBug (i : Issue) : Bug :=
  ⟨i.key, i.summary, i.status, i.priority, i.created_at, i.updated_at,
   i.resolved_at, i.component, i.reporter, i.assignee,
   none, none, none, none, none, none, none, none⟩

/-- Modelled from the spec: on upsert of an existing row the Sync Service
overwrites the mutable fields (status, priority, timestamps, assignee,
component); classification fields are left untouched. -/
def updateBug (b : Bug) (i : Issue) : Bug :=
  { b with
    status := i.status
    priority := i.priority
    created_at := i.created_at
    updated_at := i.updated_at
    resolved_at := i.resolved_at
    component := i.component
    assignee := i.assignee }

/-- Modelled from the spec: upsert one issue into the Bug Store keyed by issue
key — insert if absent, overwrite mutable fields if present. -/
def upsertBug (store : List Bug) (i : Issue) : List Bug :=
  if store.any (fun b => b.jira_key == i.key) then
    store.map (fun b => if b.jira_key == i.key then updateBug b i else b)
  else
    store ++ [insertBug i]

/-- Modelled from the spec: the sync pass upserts every issue of the fetched
tracker snapshot into the Bug Store, in order. -/
def syncUpserts (store : List Bug) (snapshot : List Issue) : List Bug :=
  snapshot.foldl upsertBug store

/-- Keys of the rows currently in the Bug Store. -/
def storeKeys (store : List Bug) : List String :=
  store.map Bug.jira_key

/-- Modelled from the spec: number of classified bugs — rows whose triage
timestamp is set. -/
def classifiedCount (store : List Bug) : ℕ :=
  (store.filter (fun b => b.triaged_at.isSome)).length

/-- Modelled from the spec: the Analytics Service (not under src/) reports
triage coverage as classified-count over total-count rounded to an integer
percentage, and omits the figure when no bug has been classified. -/
def triageCoverage (store : List Bug) : Option ℤ :=
  if classifiedCount store = 0 then none
  else some (round ((100 * (classifiedCount store : ℚ)) / (store.length : ℚ)))

/-- Resolution duration of a single bug in days, when it is resolved. -/
def resolutionDays (b : Bug) : Option ℚ :=
  b.resolved_at.map (fun r => r - b.created_at)

/-- Durations, in days, of exactly the bugs with a non-null resolved
timestamp. -/
def resolvedDurations (store : List Bug) : List ℚ :=
  store.filterMap resolutionDays

/-- Modelled from the spec: the Analytics Service (not under src/) computes the
mean of resolved-minus-created in days over bugs with a non-null resolved
timestamp, and null when no resolved bug exists. -/
def avgResolutionDays (store : List Bug) : Option ℚ :=
  if (resolvedDurations store).length = 0 then none
  else some ((resolvedDurations store).sum / ((resolvedDurations store).length : ℚ))

/-- Modelled from the spec: count of open bugs — status not in the fixed
closed-set (kept abstract as a parameter, since the backend is not under
src/). -/
def openCount (closedSet : List String) (store : List Bug) : ℕ :=
  (store.filter (fun b => !(closedSet.contains b.status))).length

/-- Modelled from the spec: count of closed bugs — the complement. -/
def closedCount (closedSet : List String) (store : List Bug) : ℕ :=
  (store.filter (fun b => closedSet.contains b.status)).length

/-- Priority label used for grouping: the raw value, with null priority under
the sentinel label shown by the frontend (src/src/app/bugs/page.tsx renders
null priority as the label None). -/
def priorityLabel (b : Bug) : String :=
  b.priority.getD "None"

/-- Modelled from the spec: bug counts grouped by raw priority value, null
grouped under a sentinel label. -/
def bugsByPriority (store : List Bug) : List (String × ℕ) :=
  (store.map priorityLabel).dedup.map
    (fun k => (k, (store.map priorityLabel).count k))

/-- Reconstruct the stored classification block of a bug (used when a triage
call is skipped and the existing stored result is returned). -/
def storedClassification (b : Bug) : Classification :=
  ⟨b.triage_category.getD "", b.triage_priority.getD "",
   b.triage_urgency.getD "", b.triage_team.getD "",
   b.triage_tags.getD [], b.triage_confidence.getD 0,
   b.triage_reasoning.getD ""⟩

/-- Modelled from the spec: on a successful classification all classification
fields and the triage timestamp are written atomically to the Bug row. -/
def applyClassification (b : Bug) (c : Classification) (now : ℚ) : Bug :=
  { b with
    triage_category := some c.category
    triage_priority := some c.priority
    triage_urgency := some c.urgency
    triage_team := some c.team
    triage_tags := some c.tags
    triage_confidence := some c.confidence
    triage_reasoning := some c.reasoning
    triaged_at := some now }

deriving instance DecidableEq for Except

/-- Outcome of one triage call: the store afterwards, the value or error
surfaced to the caller, and whether the classification client was invoked. -/
structure TriageOutcome where
  store : List Bug
  result : Except String Classification
  clientInvoked : Bool
deriving DecidableEq

/-- Modelled from the spec: the triage flow (not under src/). Skips — returning
the existing stored result without invoking the client — if the bug is already
classified and force is false; otherwise invokes the classification client
once, writing all fields on success and leaving the bug unclassified on a
malformed response. -/
def triageBug (store : List Bug) (key : String) (force : Bool)
    (client : Bug → Except String Classification) (now : ℚ) : TriageOutcome :=
  match store.find? (fun b => b.jira_key == key) with
  | none => ⟨store, Except.error "not found", false⟩
  | some b =>
    if b.triaged_at.isSome && !force then
      ⟨store, Except.ok (storedClassification b), false⟩
    else
      match client b with
      | Except.ok c =>
        ⟨store.map (fun x => if x.jira_key == key then applyClassification x c now else x),
         Except.ok c, true⟩
      | Except.error e => ⟨store, Except.error e, true⟩

/-- Filters accepted by the bug listing endpoint. -/
structure BugFilters where
  status : Option String
  priority : Option String
  search : Option String

/-- Lower-cased character list of a string, for the case-insensitive search. -/
def lowerChars (s : String) : List Char :=
  s.toLower.data

/-- Whether the first character list starts the second. -/
def startsWithChars : List Char → List Char → Bool
  | [], _ => true
  | _ :: _, [] => false
  | a :: as, b :: bs => a == b && startsWithChars as bs

/-- Whether the needle occurs as a contiguous run inside the hay. -/
def containsChars (needle hay : List Char) : Bool :=
  (List.range (hay.length + 1)).any (fun i => startsWithChars needle (hay.drop i))

/-- Modelled from the spec: a bug matches the filters when status and priority
match exactly and the search term occurs case-insensitively in the summary. -/
def matchesFilters (f : BugFilters) (b : Bug) : Bool :=
  (match f.status with
   | none => true
   | some s => b.status == s) &&
  (match f.priority with
   | none => true
   | some p => b.priority == some p) &&
  (match f.search with
   | none => true
   | some q => containsChars (lowerChars q) (lowerChars b.summary))

/-- Result of one bug listing call: the page of items and the filtered row
count before pagination. -/
structure BugListing where
  items : List Bug
  total : ℕ
deriving DecidableEq

/-- Modelled from the spec: offset-based pagination with page 1-indexed; total
is the filtered row count before pagination. -/
def listBugs (store : List Bug) (page pageSize : ℕ) (f : BugFilters) : BugListing :=
  ⟨((store.filter (matchesFilters f)).drop ((page - 1) * pageSize)).take pageSize,
   (store.filter (matchesFilters f)).length⟩

/-- Page size used by the bug-list page (src/src/app/bugs/page.tsx line 39). -/
def bugsPageSize : ℕ := 25

/-- Total page count computed by the bug-list page
(src/src/app/bugs/page.tsx line 106): the ceiling of total over the page
size. -/
def totalPages (total : ℕ) : ℕ :=
  (total + bugsPageSize - 1) / bugsPageSize

/-- The Previous button handler of the bug-list page
(src/src/app/bugs/page.tsx line 273): the page becomes the maximum of 1 and
the current page minus one. -/
def prevClick (p : ℕ) : ℕ :=
  max 1 (p - 1)

/-- The Next button handler of the bug-list page
(src/src/app/bugs/page.tsx line 274): the page becomes the minimum of the
total page count and the current page plus one. -/
def nextClick (total p : ℕ) : ℕ :=
  min (totalPages total) (p + 1)

/-- A triage request as issued by the frontend: the issue key and the force
flag passed to the API client's triageBug. -/
structure TriageRequest where
  jira_key : String
  force : Bool
deriving DecidableEq

/-- The manual-triage handler of the bug-list page
(src/src/app/bugs/page.tsx lines 41 to 59): it always calls triageBug with
force set to true, regardless of the bug. -/
def handleTriage (jiraKey : String) : TriageRequest :=
  ⟨jiraKey, true⟩

/-- Default of the force parameter of the API client's triageBug
(src/unnamed/part_001 line 69). -/
def triageBugDefaultForce : Bool :=
  false

/-- JavaScript truthiness of a number: zero is falsy. -/
def jsNumberTruthy (x : ℚ) : Bool :=
  !(x == 0)

/-- The Avg Resolution Time card value computed by the dashboard
(src/unnamed/part_000 lines 99 to 103): a JavaScript conditional on the
truthiness of the nullable number, rendering the number with a days suffix
when truthy and the string N/A otherwise. -/
def renderAvgResolution : Option ℚ → String
  | none => "N/A"
  | some x => if jsNumberTruthy x then toString x ++ " days" else "N/A"

/-- The triage invariant of the data model: the triage timestamp is set exactly
when all classification fields (category, priority, urgency, team, confidence)
are populated. -/
def triageInvariant (b : Bug) : Prop :=
  b.triaged_at.isSome = true ↔
    (b.triage_category.isSome = true ∧ b.triage_priority.isSome = true ∧
     b.triage_urgency.isSome = true ∧ b.triage_team.isSome = true ∧
     b.triage_confidence.isSome = true)

instance decidableTriageInvariant (b : Bug) : Decidable (triageInvariant b) := by
  unfold triageInvariant
  infer_instance

/-- Patch a bug with the first issue of the snapshot carrying its key, the way
one whole sync pass affects an existing row. -/
def patchWith (snapshot : List Issue) (b : Bug) : Bug :=
  match snapshot.find? (fun i => i.key == b.jira_key) with
  | some i => updateBug b i
  | none => b

/-- Rows a sync pass appends: one freshly inserted row per snapshot issue whose
key is not among the given existing keys. -/
def freshOf (snapshot : List Issue) (ks : List String) : List Bug :=
  (snapshot.filter (fun i => !(ks.contains i.key))).map insertBug

/-- Example tracker issue, still open. -/
def exIssue1 : Issue :=
  ⟨"MIG-1", "Crash on sync", "Open", some "High", 0, 10, none, none, none, none⟩

/-- Example tracker issue, resolved three days after creation. -/
def exIssue2 : Issue :=
  ⟨"MIG-2", "Slow dashboard", "Closed", some "High", 0, 5, some 3, none, none, none⟩

/-- Example classification result. -/
def exClassif : Classification :=
  ⟨"bug", "high", "soon", "backend", ["sync"], 1, "crash during sync"⟩

/-- Example untriaged bug row. -/
def exBugU : Bug := insertBug exIssue1

/-- Example classified bug row. -/
def exBugT : Bug := applyClassification (insertBug exIssue2) exClassif 7

/-- Example store holding one untriaged and one classified bug. -/
def exStore : List Bug := [exBugU, exBugT]

/-- Example tracker snapshot. -/
def exSnap : List Issue := [exIssue1, exIssue2]

/-- Example classification client returning a fixed structured result. -/
def exClient : Bug → Except String Classification := fun _ => Except.ok exClassif

/-- Example filter combination selecting everything. -/
def exFilters : BugFilters := ⟨none, none, none⟩

/-- First bug of the worked example of the spec: open, priority High, not
resolved. -/
def migBug1 : Bug :=
  ⟨"MIG-1", "", "Open", some "High", 0, 0, none, none, none, none,
   none, none, none, none, none, none, none, none⟩

/-- Second bug of the worked example of the spec: closed, priority High,
resolved three days after creation. -/
def migBug2 : Bug :=
  ⟨"MIG-2", "", "Closed", some "High", 0, 0, some 3, none, none, none,
   none, none, none, none, none, none, none, none⟩

/-- The two-bug store of the worked example of the spec. -/
def migStore : List Bug := [migBug1, migBug2]

/-- Updating mutable fields keeps the row's key. -/
theorem updateBug_jira_key (b : Bug) (i : Issue) :
    (updateBug b i).jira_key = b.jira_key := rfl

/-- A freshly inserted row carries the issue's key. -/
theorem insertBug_jira_key (i : Issue) :
    (insertBug i).jira_key = i.key := rfl

/-- Overwriting the mutable fields twice with the same issue is the same as
once. -/
theorem updateBug_updateBug (b : Bug) (i : Issue) :
    updateBug (updateBug b i) i = updateBug b i := rfl

/-- Overwriting a freshly inserted row with its own issue changes nothing. -/
theorem updateBug_insertBug (i : Issue) :
    updateBug (insertBug i) i = insertBug i := rfl

/-- C10: the dashboard's Avg Resolution Time card shows N/A exactly when the
average is null or equals zero — a zero average is rendered as N/A rather than
as a number of days, because the JavaScript conditional tests truthiness. -/
theorem renderAvgResolution_na_iff (v : Option ℚ) :
    renderAvgResolution v = "N/A" ↔ v = none ∨ v = some 0 := by
  cases v with
  | none => simp [renderAvgResolution]
  | some x =>
    rcases eq_or_ne x 0 with hx | hx
    · subst hx
      simp [renderAvgResolution, jsNumberTruthy]
    · have hne : (toString x ++ " days" : String) ≠ "N/A" := by
        intro h
        have hl := congrArg String.length h
        rw [String.length_append] at hl
        have h5 : (" days" : String).length = 5 := rfl
        have h3 : ("N/A" : String).length = 3 := rfl
        rw [h5, h3] at hl
        omega
      simp [renderAvgResolution, jsNumberTruthy, hx, hne]

/-- C9: on the bug-list page the Previous handler never takes the page below 1;
for a positive page count the Next handler keeps the page within 1 and the page
count; but with zero total bugs the page count is 0 and a Next click sets the
page to 0, leaving the 1-indexed range. -/
theorem page_nav_bounds (p total : ℕ) (hp : 1 ≤ p) :
    1 ≤ prevClick p ∧
    (1 ≤ totalPages total →
      1 ≤ nextClick total p ∧ nextClick total p ≤ totalPages total) ∧
    (total = 0 → nextClick total p = 0) := by
  refine ⟨le_max_left _ _, fun h => ⟨le_min h (by omega), min_le_left _ _⟩, fun h => ?_⟩
  subst h
  simp [nextClick, totalPages, bugsPageSize]

/-- Concrete instances of the page-navigation bounds: with 30 bugs (2 pages)
navigation stays in range from page 1, and with 0 bugs a Next click from page 1
yields page 0. -/
theorem page_nav_bounds_witness :
    (1 ≤ prevClick 1 ∧
      (1 ≤ totalPages 30 → 1 ≤ nextClick 30 1 ∧ nextClick 30 1 ≤ totalPages 30) ∧
      (30 = 0 → nextClick 30 1 = 0)) ∧
    (1 ≤ prevClick 1 ∧
      (1 ≤ totalPages 0 → 1 ≤ nextClick 0 1 ∧ nextClick 0 1 ≤ totalPages 0) ∧
      (0 = 0 → nextClick 0 1 = 0)) :=
  ⟨page_nav_bounds 1 30 (by decide), page_nav_bounds 1 0 (by decide)⟩

/-- C7: a triage call without force on an already-classified bug returns the
existing stored classification, does not invoke the classification client, and
leaves the store — hence every stored field of the bug — unchanged. -/
theorem triage_skips_classified (store : List Bug) (key : String)
    (client : Bug → Except String Classification) (now : ℚ) (b : Bug)
    (hfind : store.find? (fun x => x.jira_key == key) = some b)
    (hclass : b.triaged_at.isSome = true) :
    triageBug store key false client now =
      ⟨store, Except.ok (storedClassification b), false⟩ := by
  simp only [triageBug, hfind]
  simp [hclass]

/-- Concrete instance of the skip: a forceless triage of the classified example
bug returns its stored classification and leaves the example store as it
was. -/
theorem triage_skips_classified_witness :
    triageBug exStore "MIG-2" false exClient 7 =
      ⟨exStore, Except.ok (storedClassification exBugT), false⟩ :=
  triage_skips_classified exStore "MIG-2" exClient 7 exBugT (by decide) (by decide)

/-- C8: the bug-list page's manual triage handler passes force equal to true
for every bug, although the API client defaults force to false; consequently a
triage initiated from this page never takes the skip-if-already-classified
branch — whenever the key resolves to a bug, the classification client is
invoked. -/
theorem handleTriage_always_forces (k : String) (store : List Bug)
    (client : Bug → Except String Classification) (now : ℚ) (b : Bug)
    (hfind : store.find? (fun x => x.jira_key == k) = some b) :
    (handleTriage k).force = true ∧
    triageBugDefaultForce = false ∧
    (triageBug store (handleTriage k).jira_key (handleTriage k).force
        client now).clientInvoked = true := by
  refine ⟨rfl, rfl, ?_⟩
  simp only [handleTriage, triageBug, hfind]
  cases client b <;> simp

/-- Concrete instance: triaging the already-classified example bug from the
page still invokes the client, because the page forces re-triage. -/
theorem handleTriage_always_forces_witness :
    (handleTriage "MIG-2").force = true ∧
    triageBugDefaultForce = false ∧
    (triageBug exStore (handleTriage "MIG-2").jira_key (handleTriage "MIG-2").force
        exClient 7).clientInvoked = true :=
  handleTriage_always_forces "MIG-2" exStore exClient 7 exBugT (by decide)

/-- A freshly inserted row satisfies the triage invariant: nothing is
classified and the triage timestamp is null. -/
theorem triageInvariant_insertBug (i : Issue) : triageInvariant (insertBug i) := by
  simp [triageInvariant, insertBug]

/-- Overwriting mutable fields preserves the triage invariant, since the
classification fields are untouched. -/
theorem triageInvariant_updateBug (b : Bug) (i : Issue)
    (h : triageInvariant b) : triageInvariant (updateBug b i) := h

/-- A successful classification write satisfies the triage invariant: all
classification fields and the timestamp are set together. -/
theorem triageInvariant_applyClassification (b : Bug) (c : Classification) (now : ℚ) :
    triageInvariant (applyClassification b c now) := by
  simp [triageInvariant, applyClassification]

/-- One upsert preserves the triage invariant across the store. -/
theorem upsert_preserves_invariant (store : List Bug) (i : Issue)
    (h : ∀ b ∈ store, triageInvariant b) :
    ∀ b ∈ upsertBug store i, triageInvariant b := by
  intro b hb
  rw [upsertBug] at hb
  split at hb
  · obtain ⟨a, ha, rfl⟩ := List.mem_map.1 hb
    by_cases hk : (a.jira_key == i.key) = true
    · simpa [hk] using triageInvariant_updateBug a i (h a ha)
    · simpa [hk] using h a ha
  · rcases List.mem_append.1 hb with hmem | hmem
    · exact h b hmem
    · rw [List.mem_singleton.1 hmem]
      exact triageInvariant_insertBug i

/-- A whole sync pass preserves the triage invariant across the store. -/
theorem sync_preserves_invariant (snapshot : List Issue) :
    ∀ store : List Bug, (∀ b ∈ store, triageInvariant b) →
      ∀ b ∈ syncUpserts store snapshot, triageInvariant b := by
  induction snapshot with
  | nil =>
    intro store h
    simpa [syncUpserts] using h
  | cons i rest ih =>
    intro store h
    have step := ih (upsertBug store i) (upsert_preserves_invariant store i h)
    simpa [syncUpserts, List.foldl_cons] using step

/-- A triage call — skip, success, or failure — preserves the triage invariant
across the store. -/
theorem triage_preserves_invariant (store : List Bug) (key : String) (force : Bool)
    (client : Bug → Except String Classification) (now : ℚ)
    (h : ∀ b ∈ store, triageInvariant b) :
    ∀ b ∈ (triageBug store key force client now).store, triageInvariant b := by
  rw [triageBug]
  cases hfind : store.find? (fun b => b.jira_key == key) with
  | none => simpa using h
  | some b0 =>
    by_cases hskip : (b0.triaged_at.isSome && !force) = true
    · simpa [hskip] using h
    · simp only [hskip]
      cases hc : client b0 with
      | ok c =>
        simp only [Bool.false_eq_true, if_false]
        intro b hb
        obtain ⟨a, ha, rfl⟩ := List.mem_map.1 hb
        by_cases hk : (a.jira_key == key) = true
        · simpa [hk] using triageInvariant_applyClassification a c now
        · simpa [hk] using h a ha
      | error e => simpa using h

/-- C2: the triage invariant — the triage timestamp is non-null iff category,
priority, urgency, team and confidence are all non-null — holds of every bug
after a sync pass and after any triage call (skip, success or failure),
whenever it held of every bug before. -/
theorem triage_invariant_all_ops (snapshot : List Issue) (store : List Bug)
    (key : String) (force : Bool) (client : Bug → Except String Classification)
    (now : ℚ) (h : ∀ b ∈ store, triageInvariant b) :
    (∀ b ∈ syncUpserts store snapshot, triageInvariant b) ∧
    (∀ b ∈ (triageBug store key force client now).store, triageInvariant b) :=
  ⟨sync_preserves_invariant snapshot store h,
   triage_preserves_invariant store key force client now h⟩

/-- Concrete instance of the invariant preservation: a row updated by the
example sync pass and the classified example row after a forced re-triage both
satisfy the triage invariant. -/
theorem triage_invariant_all_ops_witness :
    triageInvariant (updateBug exBugU exIssue1) ∧ triageInvariant exBugT :=
  ⟨(triage_invariant_all_ops exSnap exStore "MIG-1" true exClient 7
      (by decide)).1 (updateBug exBugU exIssue1) (by decide),
   (triage_invariant_all_ops exSnap exStore "MIG-1" true exClient 7
      (by decide)).2 exBugT (by decide)⟩

/-- C3: when the store is non-empty and at least one bug is classified, the
overview reports triage coverage as the integer-rounded percentage of
classified over total; the figure is absent when the store is empty or no bug
is classified. -/
theorem triage_coverage_spec (store : List Bug)
    (h : 0 < store.length ∧ 0 < classifiedCount store) :
    triageCoverage store =
      some (round ((100 * (classifiedCount store : ℚ)) / (store.length : ℚ))) ∧
    (∀ s : List Bug, s.length = 0 ∨ classifiedCount s = 0 → triageCoverage s = none) := by
  constructor
  · rw [triageCoverage, if_neg (by omega)]
  · intro s hs
    have hc : classifiedCount s = 0 := by
      rcases hs with hs | hs
      · have hle : classifiedCount s ≤ s.length :=
          List.length_filter_le _ s
        omega
      · exact hs
    rw [triageCoverage, if_pos hc]

/-- Concrete instance of the coverage figure: one classified bug out of two
gives 50 percent coverage, and the empty store reports no coverage. -/
theorem triage_coverage_spec_witness :
    triageCoverage exStore = some 50 ∧ triageCoverage [] = none := by
  constructor
  · have h := (triage_coverage_spec exStore ⟨by decide, by decide⟩).1
    rw [h]
    have h1 : classifiedCount exStore = 1 := by decide
    have h2 : exStore.length = 2 := by decide
    rw [h1, h2]
    norm_num [round_eq]
  · exact (triage_coverage_spec exStore ⟨by decide, by decide⟩).2 [] (Or.inl rfl)

/-- C4: the overview's average resolution time is null exactly when no bug has
a non-null resolved timestamp, and otherwise equals the mean of
resolved-minus-created in days over exactly those bugs; on the spec's two-bug
example it equals 3. -/
theorem avg_resolution_spec :
    (∀ store : List Bug,
      (avgResolutionDays store = none ↔ resolvedDurations store = []) ∧
      (resolvedDurations store ≠ [] →
        avgResolutionDays store =
          some ((resolvedDurations store).sum /
                ((resolvedDurations store).length : ℚ)))) ∧
    avgResolutionDays migStore = some 3 := by
  constructor
  · intro store
    constructor
    · rw [avgResolutionDays]
      by_cases hl : (resolvedDurations store).length = 0
      · simp [hl, List.length_eq_zero.1 hl]
      · simp only [hl, if_false]
        simp [List.length_eq_zero] at hl
        simp [hl]
    · intro hne
      have hl : (resolvedDurations store).length ≠ 0 := by
        simpa [List.length_eq_zero] using hne
      rw [avgResolutionDays, if_neg hl]
  · have hd : resolvedDurations migStore = [3] := by
      norm_num [resolvedDurations, resolutionDays, migStore, migBug1, migBug2,
        List.filterMap]
    rw [avgResolutionDays, hd]
    norm_num

/-- Concrete instance on the spec's example store: the average is present and
equals the single resolved duration divided by one. -/
theorem avg_resolution_spec_witness :
    (avgResolutionDays migStore = none ↔ resolvedDurations migStore = []) ∧
    avgResolutionDays migStore =
      some ((resolvedDurations migStore).sum /
            ((resolvedDurations migStore).length : ℚ)) :=
  ⟨(avg_resolution_spec.1 migStore).1,
   (avg_resolution_spec.1 migStore).2 (by decide)⟩

/-- C5: the bug listing's total is the filtered row count before pagination for
every filter combination and page, and any page strictly beyond the ceiling of
total over page size yields an empty item list together with that same total —
a well-formed result, not an error. -/
theorem listBugs_page_beyond (store : List Bug) (page pageSize : ℕ) (f : BugFilters)
    (hps : 0 < pageSize)
    (hpage : ((store.filter (matchesFilters f)).length + pageSize - 1) / pageSize < page) :
    (listBugs store page pageSize f).items = [] ∧
    (∀ p : ℕ, (listBugs store p pageSize f).total =
      (store.filter (matchesFilters f)).length) := by
  refine ⟨?_, fun p => rfl⟩
  have h1 : (store.filter (matchesFilters f)).length + pageSize - 1 < page * pageSize :=
    (Nat.div_lt_iff_lt_mul hps).1 hpage
  have h2 : (store.filter (matchesFilters f)).length ≤ (page - 1) * pageSize := by
    cases page with
    | zero => omega
    | succ n =>
      have hmul : (n + 1) * pageSize = n * pageSize + pageSize := by ring
      have hmul2 : (n + 1 - 1) * pageSize = n * pageSize := by
        congr 1
      rw [hmul] at h1
      rw [hmul2]
      omega
  show ((store.filter (matchesFilters f)).drop ((page - 1) * pageSize)).take pageSize = []
  rw [List.drop_eq_nil_of_le h2]
  exact List.take_nil

/-- Concrete instance: page 2 of the unfiltered two-bug example store at page
size 25 is beyond the last page, so the listing is empty while the total stays
2. -/
theorem listBugs_page_beyond_witness :
    (listBugs exStore 2 25 exFilters).items = [] ∧
    (∀ p : ℕ, (listBugs exStore p 25 exFilters).total =
      (exStore.filter (matchesFilters exFilters)).length) :=
  listBugs_page_beyond exStore 2 25 exFilters (by decide) (by decide)

/-- C6: for every store the overview counts are coherent — open plus closed
equals the total for any fixed closed-set, and the per-priority group counts
sum to the total. -/
theorem overview_count_invariants (closedSet : List String) (store : List Bug) :
    openCount closedSet store + closedCount closedSet store = store.length ∧
    ((bugsByPriority store).map Prod.snd).sum = store.length := by
  constructor
  · rw [openCount, closedCount]
    induction store with
    | nil => rfl
    | cons b rest ih =>
      rw [List.filter_cons, List.filter_cons]
      cases hc : closedSet.contains b.status <;>
        simp_all [List.length_cons] <;> omega
  · rw [bugsByPriority, List.map_map]
    have hsum := List.sum_map_count_dedup_eq_length (store.map priorityLabel)
    have hcomp :
        (Prod.snd ∘ fun k => (k, (store.map priorityLabel).count k)) =
          fun k => (store.map priorityLabel).count k := rfl
    rw [hcomp]
    rw [show (fun k => (store.map priorityLabel).count k) =
          (fun k => List.count k (store.map priorityLabel)) from rfl]
    rw [hsum, List.length_map]

/-- Patching keeps the row's key. -/
theorem patchWith_jira_key (s : List Issue) (b : Bug) :
    (patchWith s b).jira_key = b.jira_key := by
  unfold patchWith
  cases s.find? (fun i => i.key == b.jira_key) <;> rfl

/-- Patching against the empty snapshot changes nothing. -/
theorem patchWith_nil (b : Bug) : patchWith [] b = b := rfl

/-- No issue of the snapshot carries a key absent from the snapshot's keys. -/
theorem find?_key_eq_none (s : List Issue) (k : String)
    (h : k ∉ s.map Issue.key) :
    s.find? (fun i => i.key == k) = none := by
  rw [List.find?_eq_none]
  intro x hx hpx
  exact h (List.mem_map.2 ⟨x, hx, beq_iff_eq.1 hpx⟩)

/-- With pairwise-distinct keys, searching the snapshot for a member's key
finds exactly that member. -/
theorem find?_key_of_nodup (s : List Issue) (hnd : (s.map Issue.key).Nodup)
    (j : Issue) (hj : j ∈ s) :
    s.find? (fun i => i.key == j.key) = some j := by
  induction s with
  | nil => cases hj
  | cons a rest ih =>
    rw [List.map_cons, List.nodup_cons] at hnd
    by_cases hk : (a.key == j.key) = true
    · have hak : a.key = j.key := beq_iff_eq.1 hk
      have haj : a = j := by
        rcases List.mem_cons.1 hj with h | h
        · exact h.symm
        · exact absurd (hak ▸ List.mem_map.2 ⟨j, h, rfl⟩) hnd.1
      rw [haj] at hk ⊢
      exact List.find?_cons_of_pos rest hk
    · have hjr : j ∈ rest := by
        rcases List.mem_cons.1 hj with h | h
        · exact absurd (beq_iff_eq.2 (by rw [h])) hk
        · exact h
      rw [List.find?_cons_of_neg rest hk]
      exact ih hnd.2 hjr

/-- Patching twice with one snapshot is the same as once. -/
theorem patchWith_idem (s : List Issue) (b : Bug) :
    patchWith s (patchWith s b) = patchWith s b := by
  cases hf : s.find? (fun i => i.key == b.jira_key) with
  | none =>
    have h1 : patchWith s b = b := by
      unfold patchWith
      rw [hf]
    rw [h1, h1]
  | some i =>
    have h1 : patchWith s b = updateBug b i := by
      unfold patchWith
      rw [hf]
    rw [h1]
    unfold patchWith
    rw [updateBug_jira_key, hf]
    rfl

/-- A row freshly inserted from a snapshot member is left unchanged by patching
with that snapshot, when keys are pairwise distinct. -/
theorem patchWith_insertBug (s : List Issue) (hnd : (s.map Issue.key).Nodup)
    (j : Issue) (hj : j ∈ s) :
    patchWith s (insertBug j) = insertBug j := by
  unfold patchWith
  rw [insertBug_jira_key, find?_key_of_nodup s hnd j hj]
  rfl

/-- Updating rows in place does not change the stored keys. -/
theorem storeKeys_map_update (store : List Bug) (i : Issue) :
    storeKeys (store.map (fun b => if b.jira_key == i.key then updateBug b i else b)) =
      storeKeys store := by
  unfold storeKeys
  rw [List.map_map]
  apply List.map_congr_left
  intro a _
  by_cases h : (a.jira_key == i.key) = true <;>
    simp [Function.comp, h, updateBug_jira_key]

/-- Key containment agrees with list membership. -/
theorem contains_eq_true_iff (l : List String) (a : String) :
    l.contains a = true ↔ a ∈ l := List.elem_iff

/-- Key containment is false off the list. -/
theorem contains_eq_false (l : List String) (a : String) (h : a ∉ l) :
    l.contains a = false := by
  cases hc : l.contains a
  · rfl
  · exact absurd ((contains_eq_true_iff l a).1 hc) h

/-- Characterization of one sync pass over a snapshot with pairwise-distinct
keys: every existing row is patched with its snapshot issue (if any), and one
fresh row per unseen key is appended, in snapshot order. -/
theorem syncUpserts_patch_fresh (snapshot : List Issue) :
    ∀ store : List Bug, (snapshot.map Issue.key).Nodup →
      syncUpserts store snapshot =
        store.map (patchWith snapshot) ++ freshOf snapshot (storeKeys store) := by
  induction snapshot with
  | nil =>
    intro store _
    show List.foldl upsertBug store [] = _
    rw [List.foldl_nil]
    have h1 : store.map (patchWith []) = store := by
      have h0 : patchWith [] = fun b => b := funext patchWith_nil
      rw [h0, List.map_id']
    rw [h1, show freshOf [] (storeKeys store) = [] from rfl, List.append_nil]
  | cons i rest ih =>
    intro store hnd
    rw [List.map_cons, List.nodup_cons] at hnd
    obtain ⟨hki, hrest⟩ := hnd
    show List.foldl upsertBug store (i :: rest) = _
    rw [List.foldl_cons]
    rw [show List.foldl upsertBug (upsertBug store i) rest =
        syncUpserts (upsertBug store i) rest from rfl]
    rw [ih (upsertBug store i) hrest]
    by_cases hmem : store.any (fun b => b.jira_key == i.key) = true
    · rw [show upsertBug store i =
          store.map (fun b => if b.jira_key == i.key then updateBug b i else b) from by
        rw [upsertBug, if_pos hmem]]
      rw [storeKeys_map_update, List.map_map]
      have hcont : (storeKeys store).contains i.key = true := by
        rcases List.any_eq_true.1 hmem with ⟨b, hb, hbe⟩
        exact (contains_eq_true_iff _ _).2 (List.mem_map.2 ⟨b, hb, beq_iff_eq.1 hbe⟩)
      have hf : freshOf (i :: rest) (storeKeys store) = freshOf rest (storeKeys store) := by
        have hm : i.key ∈ storeKeys store := (contains_eq_true_iff _ _).1 hcont
        unfold freshOf
        rw [List.filter_cons]
        simp [hm]
      rw [hf]
      congr 1
      apply List.map_congr_left
      intro a _
      simp only [Function.comp_apply]
      by_cases h : (a.jira_key == i.key) = true
      · rw [if_pos h]
        have hk : a.jira_key = i.key := beq_iff_eq.1 h
        have hfr : rest.find? (fun x => x.key == a.jira_key) = none :=
          find?_key_eq_none rest a.jira_key (by rw [hk]; exact hki)
        have hic : (i.key == a.jira_key) = true := beq_iff_eq.2 hk.symm
        unfold patchWith
        rw [updateBug_jira_key, hfr, List.find?_cons_of_pos rest hic]
      · have hic : ¬((i.key == a.jira_key) = true) := fun hc =>
          h (beq_iff_eq.2 (beq_iff_eq.1 hc).symm)
        rw [if_neg h]
        unfold patchWith
        rw [List.find?_cons_of_neg rest hic]
    · rw [show upsertBug store i = store ++ [insertBug i] from by
        rw [upsertBug, if_neg hmem]]
      have hnotmem : i.key ∉ storeKeys store := by
        intro hc
        rcases List.mem_map.1 hc with ⟨b, hb, hkey⟩
        exact hmem (List.any_eq_true.2 ⟨b, hb, beq_iff_eq.2 hkey⟩)
      have h1 : storeKeys (store ++ [insertBug i]) = storeKeys store ++ [i.key] := by
        unfold storeKeys
        rw [List.map_append]
        rfl
      have h2 : patchWith rest (insertBug i) = insertBug i := by
        unfold patchWith
        rw [insertBug_jira_key, find?_key_eq_none rest i.key hki]
      have h3 : store.map (patchWith rest) = store.map (patchWith (i :: rest)) := by
        apply List.map_congr_left
        intro a ha
        have hak : a.jira_key ≠ i.key := by
          intro hc
          exact hnotmem (hc ▸ List.mem_map.2 ⟨a, ha, rfl⟩)
        have hic : ¬((i.key == a.jira_key) = true) := fun hc =>
          hak (beq_iff_eq.1 hc).symm
        unfold patchWith
        rw [List.find?_cons_of_neg rest hic]
      have h4 : freshOf rest (storeKeys store ++ [i.key]) =
          freshOf rest (storeKeys store) := by
        unfold freshOf
        congr 1
        apply List.filter_congr
        intro j hj
        have hjk : j.key ≠ i.key := by
          intro hc
          exact hki (hc ▸ List.mem_map.2 ⟨j, hj, rfl⟩)
        by_cases hj2 : j.key ∈ storeKeys store
        · rw [(contains_eq_true_iff _ _).2 hj2,
              (contains_eq_true_iff _ _).2 (List.mem_append.2 (Or.inl hj2))]
        · have t1 : (storeKeys store).contains j.key = false :=
            contains_eq_false _ _ hj2
          have t2 : (storeKeys store ++ [i.key]).contains j.key = false := by
            apply contains_eq_false
            intro hc
            rcases List.mem_append.1 hc with hc | hc
            · exact hj2 hc
            · exact hjk (List.mem_singleton.1 hc)
          rw [t1, t2]
      have h5 : freshOf (i :: rest) (storeKeys store) =
          insertBug i :: freshOf rest (storeKeys store) := by
        unfold freshOf
        rw [List.filter_cons]
        simp [hnotmem]
      rw [List.map_append, h1, h4, h5, h3]
      simp [h2, List.append_assoc]

/-- Keys distribute over store concatenation. -/
theorem storeKeys_append (a b : List Bug) :
    storeKeys (a ++ b) = storeKeys a ++ storeKeys b := by
  unfold storeKeys
  rw [List.map_append]

/-- Patching every row keeps the stored keys. -/
theorem storeKeys_map_patch (s : List Issue) (store : List Bug) :
    storeKeys (store.map (patchWith s)) = storeKeys store := by
  unfold storeKeys
  rw [List.map_map]
  apply List.map_congr_left
  intro a _
  simp [Function.comp, patchWith_jira_key]

/-- The keys of the appended fresh rows are the unseen snapshot keys. -/
theorem freshOf_keys (snapshot : List Issue) (ks : List String) :
    storeKeys (freshOf snapshot ks) =
      (snapshot.filter (fun i => !(ks.contains i.key))).map Issue.key := by
  unfold freshOf storeKeys
  rw [List.map_map]
  apply List.map_congr_left
  intro j _
  simp [Function.comp, insertBug_jira_key]

/-- After a sync pass every snapshot key is present in the store. -/
theorem key_mem_syncUpserts (snapshot : List Issue) (store : List Bug)
    (hnd : (snapshot.map Issue.key).Nodup) (i : Issue) (hi : i ∈ snapshot) :
    i.key ∈ storeKeys (syncUpserts store snapshot) := by
  rw [syncUpserts_patch_fresh snapshot store hnd, storeKeys_append,
      storeKeys_map_patch, freshOf_keys]
  by_cases hm : i.key ∈ storeKeys store
  · exact List.mem_append.2 (Or.inl hm)
  · refine List.mem_append.2 (Or.inr ?_)
    refine List.mem_map.2 ⟨i, List.mem_filter.2 ⟨hi, ?_⟩, rfl⟩
    rw [contains_eq_false _ _ hm]
    rfl

/-- C1: syncing the same tracker snapshot (whose issue keys are pairwise
distinct) twice leaves the Bug Store exactly as after one sync — in
particular every classification field is unchanged by the second pass — and
a sync pass never introduces duplicate keys. -/
theorem sync_upsert_idempotent (snapshot : List Issue) (store : List Bug)
    (hsnap : (snapshot.map Issue.key).Nodup) :
    syncUpserts (syncUpserts store snapshot) snapshot = syncUpserts store snapshot ∧
    ((storeKeys store).Nodup → (storeKeys (syncUpserts store snapshot)).Nodup) := by
  constructor
  · rw [syncUpserts_patch_fresh snapshot (syncUpserts store snapshot) hsnap]
    have hfresh : freshOf snapshot (storeKeys (syncUpserts store snapshot)) = [] := by
      have hfil : List.filter
          (fun i => !((storeKeys (syncUpserts store snapshot)).contains i.key))
          snapshot = [] := by
        rw [List.filter_eq_nil_iff]
        intro j hj
        rw [(contains_eq_true_iff _ _).2 (key_mem_syncUpserts snapshot store hsnap j hj)]
        decide
      unfold freshOf
      rw [hfil]
      rfl
    rw [hfresh, List.append_nil, syncUpserts_patch_fresh snapshot store hsnap,
        List.map_append, List.map_map]
    congr 1
    · apply List.map_congr_left
      intro a _
      simp only [Function.comp_apply]
      exact patchWith_idem snapshot a
    · unfold freshOf
      rw [List.map_map]
      apply List.map_congr_left
      intro j hj
      simp only [Function.comp_apply]
      exact patchWith_insertBug snapshot hsnap j (List.mem_filter.1 hj).1
  · intro hstore
    rw [syncUpserts_patch_fresh snapshot store hsnap, storeKeys_append,
        storeKeys_map_patch, freshOf_keys]
    rw [List.nodup_append]
    refine ⟨hstore, ?_, ?_⟩
    · exact List.Nodup.sublist (List.Sublist.map _ (List.filter_sublist _)) hsnap
    · intro a ha hb
      rcases List.mem_map.1 hb with ⟨j, hjf, rfl⟩
      have hq := (List.mem_filter.1 hjf).2
      rw [(contains_eq_true_iff _ _).2 ha] at hq
      exact absurd hq (by decide)

/-- Concrete instance of sync idempotence: re-syncing the example snapshot
over the example store changes nothing, and the resulting keys are pairwise
distinct. -/
theorem sync_upsert_idempotent_witness :
    syncUpserts (syncUpserts exStore exSnap) exSnap = syncUpserts exStore exSnap ∧
    (storeKeys (syncUpserts exStore exSnap)).Nodup :=
  ⟨(sync_upsert_idempotent exSnap exStore (by decide)).1,
   (sync_upsert_idempotent exSnap exStore (by decide)).2 (by decide)⟩
